import Mathlib

/-!
# Verification of the XueqiuCrawlers specification against its source

Shallow embedding of the parts of the crawler code that the spec's
claims are about: the K-line row mapping, the base-crawler retry loop,
the CSV `append_data` / relational upsert pair, the financial-statement
worklist, the derived-ratio computation, the cookie/authentication
manager, the cookie-import CLI flow, and the `DataRepository` facade.
Numeric values are modelled as exact rationals; at every concrete input
used below the binary floating-point evaluation of the Python source
agrees with the rational one (no value lies near a rounding boundary).
Dictionaries are modelled as association lists with first-match lookup
and Python's later-assignment-wins update.
-/

namespace Xueqiu

/-- Association-list lookup with Python's `dict.get(k, 0)` defaulting:
a statement record maps a field name to the first element of its value
list, with absent fields read as `0` (the `safe_number(d.get(k,[0])[0])`
idiom of `financial_statements_crawler.py`). -/
def getF (d : List (String × ℚ)) (k : String) : ℚ :=
  (d.lookup k).getD 0

/-- Python dict assignment `m[k] = v` (and the merge `{**m, k: v}`):
any existing binding of `k` is replaced by `v`.  Modelled up to key
order — CPython keeps an existing key at its original position, this
model moves it to the end; no claim inspects cookie order. -/
def dictSet (m : List (String × String)) (k v : String) : List (String × String) :=
  m.filter (fun p => p.1 ≠ k) ++ [(k, v)]

/-- Key membership in an association list, Python's `k in d`. -/
def hasKey (m : List (String × String)) (k : String) : Bool :=
  (m.lookup k).isSome

/-- Round a rational to the nearest integer, ties to even — the rounding
mode of Python 3's builtin `round`. -/
def pyRoundInt (q : ℚ) : ℤ :=
  let f : ℤ := ⌊q⌋
  let frac : ℚ := q - f
  if frac < 1/2 then f
  else if 1/2 < frac then f + 1
  else if f % 2 = 0 then f else f + 1

/-- Python's `round(x, 2)`. -/
def pyRound2 (q : ℚ) : ℚ :=
  (pyRoundInt (q * 100) : ℚ) / 100

/-! ## K-line row mapping (`KlineCrawler._fetch_kline_data_with_retry`)

Each raw item is an array `[ts_ms, volume, open, high, low, close, chg,
percent, turnoverrate?]`.  The Python body reads indices 0–7
unconditionally and index 8 only when `len(item) > 8`; an item shorter
than 8 raises `IndexError` inside the retry loop, so the mapping is
partial: it produces a bar exactly when the item has at least 8
elements.  The constant `symbol`/`period`/`type`/crawl-time fields do
not depend on the item and are omitted from the bar model. -/

structure KlineBar where
  timestamp : ℚ
  volume : ℚ
  open_ : ℚ
  high : ℚ
  low : ℚ
  close : ℚ
  chg : ℚ
  percent : ℚ
  turnoverrate : ℚ
  deriving Repr, DecidableEq

def mapKlineItem (item : List ℚ) : Option KlineBar :=
  if 8 ≤ item.length then
    some {
      timestamp := item.getD 0 0 / 1000
      volume := item.getD 1 0
      open_ := pyRound2 (item.getD 2 0)
      high := pyRound2 (item.getD 3 0)
      low := pyRound2 (item.getD 4 0)
      close := pyRound2 (item.getD 5 0)
      chg := pyRound2 (item.getD 6 0)
      percent := pyRound2 (item.getD 7 0)
      turnoverrate := if 8 < item.length then pyRound2 (item.getD 8 0) else 0 }
  else none

end Xueqiu

namespace Xueqiu

/-- C4: K-line row mapping.  The concrete 9-element item of the claim
maps to the stated bar (timestamp `1700000000`, open `10`, high `11`,
low `9.5`, close `10.5`, turnoverrate `1.23`), and every item that the
mapping accepts with fewer than 9 elements gets turnoverrate `0.0`. -/
theorem kline_row_mapping
    (item : List ℚ) (bar : KlineBar)
    (h : mapKlineItem item = some bar) (hlen : item.length < 9) :
    (mapKlineItem [1700000000000, 1000, (10001:ℚ)/1000, (10999:ℚ)/1000,
        (9501:ℚ)/1000, (10501:ℚ)/1000, (501:ℚ)/1000, (501:ℚ)/100,
        (1234:ℚ)/1000] =
      some { timestamp := 1700000000, volume := 1000, open_ := 10,
             high := 11, low := (19:ℚ)/2, close := (21:ℚ)/2,
             chg := (1:ℚ)/2, percent := (501:ℚ)/100,
             turnoverrate := (123:ℚ)/100 }) ∧
    bar.turnoverrate = 0 := by
  constructor
  · simp only [mapKlineItem, List.length_cons, List.length_nil,
      List.getD_cons_zero, List.getD_cons_succ]
    norm_num [pyRound2, pyRoundInt, KlineBar.mk.injEq]
  · unfold mapKlineItem at h
    split at h
    · rename_i hge
      have hnot : ¬ 8 < item.length := by omega
      simp only [hnot, if_false] at h
      cases h
      rfl
    · cases h

/-- Witness for C4 at the 8-element item of the spec's example. -/
theorem kline_row_mapping_witness :
    ∃ bar, mapKlineItem [1700000000000, 1000, (10001:ℚ)/1000,
        (10999:ℚ)/1000, (9501:ℚ)/1000, (10501:ℚ)/1000, (501:ℚ)/1000,
        (501:ℚ)/100] = some bar ∧ bar.turnoverrate = 0 := by
  have heq : mapKlineItem [1700000000000, 1000, (10001:ℚ)/1000,
      (10999:ℚ)/1000, (9501:ℚ)/1000, (10501:ℚ)/1000, (501:ℚ)/1000,
      (501:ℚ)/100] =
      some { timestamp := 1700000000, volume := 1000, open_ := 10,
             high := 11, low := (19:ℚ)/2, close := (21:ℚ)/2,
             chg := (1:ℚ)/2, percent := (501:ℚ)/100, turnoverrate := 0 } := by
    simp only [mapKlineItem, List.length_cons, List.length_nil,
      List.getD_cons_zero, List.getD_cons_succ]
    norm_num [pyRound2, pyRoundInt, KlineBar.mk.injEq]
  exact ⟨_, heq, (kline_row_mapping _ _ heq (by simp)).2⟩

/-! ## Base-crawler retry loop (`BaseCrawler.make_request`)

The Python body is
`for attempt in range(max_retries): issue GET; return on status 200;`
`sleep(request_delay) when attempt < max_retries - 1`, followed by
`raise Exception("...{max_retries}...")` after the loop.  The HTTP
environment is a function from attempt index to the status code that
attempt observes; the run is summarised by its outcome together with
the number of GETs issued and the number of sleeps taken. -/

/-- Configured crawler timing defaults (`settings.py CRAWLER_CONFIG`). -/
def crawlerMaxRetries : Nat := 3

inductive ReqOutcome where
  | ok (attemptIndex : Nat)
  | failure (retryCount : Nat)
  deriving Repr, DecidableEq

/-- One pass of the `for attempt in range(max_retries)` loop, threading
the count of GETs issued and sleeps taken. -/
def makeRequestLoop (resp : Nat → Nat) (maxRetries : Nat) :
    List Nat → Nat × Nat → Option Nat × Nat × Nat
  | [], (gets, sleeps) => (none, gets, sleeps)
  | i :: rest, (gets, sleeps) =>
    if resp i = 200 then (some i, gets + 1, sleeps)
    else
      let sleeps' := if i < maxRetries - 1 then sleeps + 1 else sleeps
      makeRequestLoop resp maxRetries rest (gets + 1, sleeps')

/-- `BaseCrawler.make_request`: outcome, GETs issued, sleeps taken. -/
def makeRequest (resp : Nat → Nat) (maxRetries : Nat) :
    ReqOutcome × Nat × Nat :=
  match makeRequestLoop resp maxRetries (List.range maxRetries) (0, 0) with
  | (some i, gets, sleeps) => (.ok i, gets, sleeps)
  | (none, gets, sleeps) => (.failure maxRetries, gets, sleeps)

theorem makeRequestLoop_all_fail (resp : Nat → Nat) (maxRetries : Nat)
    (l : List Nat) (h : ∀ i ∈ l, resp i ≠ 200) :
    ∀ gets sleeps, makeRequestLoop resp maxRetries l (gets, sleeps) =
      (none, gets + l.length,
        sleeps + (l.filter (fun i => decide (i < maxRetries - 1))).length) := by
  induction l with
  | nil => intro gets sleeps; simp [makeRequestLoop]
  | cons i rest ih =>
    intro gets sleeps
    have hi : resp i ≠ 200 := h i (List.mem_cons_self i rest)
    have hrest : ∀ j ∈ rest, resp j ≠ 200 := fun j hj => h j (List.mem_cons_of_mem i hj)
    simp only [makeRequestLoop, hi, if_false, if_neg hi]
    rw [ih hrest]
    by_cases hlt : i < maxRetries - 1
    · simp [hlt, List.filter_cons]
      omega
    · simp [hlt, List.filter_cons]
      omega

/-- Filtering `range n` by `(· < n - 1)` leaves exactly `range (n - 1)`. -/
theorem filter_range_lt_pred (n : Nat) :
    (List.range n).filter (fun i => decide (i < n - 1)) = List.range (n - 1) := by
  cases n with
  | zero => simp
  | succ k =>
    rw [List.range_succ, List.filter_append]
    have h1 : k + 1 - 1 = k := by omega
    have h2 : ¬ (k < k + 1 - 1) := by omega
    simp only [h1]
    have hk : (List.range k).filter (fun i => decide (i < k)) = List.range k := by
      apply List.filter_eq_self.mpr
      intro a ha
      simp [List.mem_range.mp ha]
    simp [hk, h2]

/-- C5: retry exhaustion.  Against an environment whose every response
has a non-200 status, `make_request` issues exactly `maxRetries` GETs,
sleeps between consecutive attempts (`maxRetries - 1` sleeps), and
ends in the failure carrying the retry count.  The configured default
for `maxRetries` is 3. -/
theorem make_request_retry_exhaustion (resp : Nat → Nat) (maxRetries : Nat)
    (h : ∀ i, resp i ≠ 200) :
    makeRequest resp maxRetries =
      (.failure maxRetries, maxRetries, maxRetries - 1) ∧
    crawlerMaxRetries = 3 := by
  refine ⟨?_, rfl⟩
  unfold makeRequest
  rw [makeRequestLoop_all_fail resp maxRetries (List.range maxRetries)
    (fun i _ => h i) 0 0]
  simp [filter_range_lt_pred]

/-- Witness for C5: a server that always answers HTTP 500, with the
default retry limit 3: exactly 3 attempts, 2 sleeps, failure carries 3. -/
theorem make_request_retry_exhaustion_witness :
    makeRequest (fun _ => 500) crawlerMaxRetries =
      (.failure 3, 3, 2) ∧ crawlerMaxRetries = 3 := by
  have := make_request_retry_exhaustion (fun _ => 500) crawlerMaxRetries
    (fun _ => by simp)
  simpa [crawlerMaxRetries] using this

/-! ## Security record storage (C1)

`DataRepository.save_stock_basic_info` delegates to
`StockRepository.upsert_stock_basic_info` (database mode) or to
`CSVStorage.append_data([record], 'stock_info', 'symbol')` (CSV mode).
The relational upsert's `ON DUPLICATE KEY UPDATE` clause lists only the
quote columns (`current`, `percent`, `high52w`, `low52w`,
`marketcapital`, `amount`, `volume`, `pe_ttm`); `append_data` reads the
existing file and drops every incoming row whose `symbol` is already
present. -/

structure StockRecord where
  symbol : String
  code : String
  name : String
  current : ℚ
  percent : ℚ
  high52w : ℚ
  low52w : ℚ
  marketcapital : ℚ
  amount : ℚ
  volume : ℚ
  pe_ttm : ℚ
  deriving Repr, DecidableEq

/-- `CSVStorage.append_data(data, table, unique_key='symbol')` against a
file already holding `existing`: returns the success flag and the file
contents afterwards.  Empty input returns `False`; when the file is
non-empty, incoming rows whose `symbol` is already present are filtered
out, and if nothing remains the method returns `True` without writing;
otherwise the new rows are appended (`save_to_csv` with mode `'a'`). -/
def csvAppendData (existing data : List StockRecord) :
    Bool × List StockRecord :=
  if data = [] then (false, existing)
  else if existing ≠ [] then
    let existingKeys := existing.map (·.symbol)
    let newData := data.filter (fun r => !existingKeys.contains r.symbol)
    if newData = [] then (true, existing)
    else (true, existing ++ newData)
  else (true, existing ++ data)

/-- `StockRepository.upsert_stock_basic_info`: `INSERT ... ON DUPLICATE
KEY UPDATE` on the `stocks` table keyed by `symbol`.  The update clause
refreshes only the quote columns, not `compcode`/`compsname`. -/
def dbUpsertStockBasicInfo (table : List StockRecord) (r : StockRecord) :
    List StockRecord :=
  if table.any (fun row => row.symbol = r.symbol) then
    table.map (fun row =>
      if row.symbol = r.symbol then
        { row with
          current := r.current
          percent := r.percent
          high52w := r.high52w
          low52w := r.low52w
          marketcapital := r.marketcapital
          amount := r.amount
          volume := r.volume
          pe_ttm := r.pe_ttm }
      else row)
  else table ++ [r]

/-- C1 counterexample: saving the same symbol twice through the CSV
backend keeps exactly one record, but it carries the FIRST save's
values, not the latest — the second save (`current = 20`, name "B") is
silently dropped and the stored record still has `current = 10`. -/
theorem csv_upsert_not_latest :
    (csvAppendData
        (csvAppendData [] [⟨"SH600000", "600000", "A", 10, 0, 0, 0, 0, 0, 0, 0⟩]).2
        [⟨"SH600000", "600000", "B", 20, 0, 0, 0, 0, 0, 0, 0⟩]) =
      (true, [⟨"SH600000", "600000", "A", 10, 0, 0, 0, 0, 0, 0, 0⟩]) ∧
    (10 : ℚ) ≠ 20 := by
  constructor
  · simp only [csvAppendData]
    norm_num
  · norm_num

/-- C1 as amended: saving the same symbol twice leaves exactly one
record per backend; the relational backend refreshes the quote columns
to the latest values (keeping the first-saved `compcode`/`compsname`),
while the CSV backend keeps the first-saved record unchanged and
discards the second save. -/
theorem save_twice_one_record (t : List StockRecord) (r1 r2 : StockRecord)
    (hsym : r2.symbol = r1.symbol)
    (hfresh : ∀ row ∈ t, row.symbol ≠ r1.symbol) :
    dbUpsertStockBasicInfo (dbUpsertStockBasicInfo t r1) r2 =
      t ++ [{ r1 with
              current := r2.current
              percent := r2.percent
              high52w := r2.high52w
              low52w := r2.low52w
              marketcapital := r2.marketcapital
              amount := r2.amount
              volume := r2.volume
              pe_ttm := r2.pe_ttm }] ∧
    csvAppendData (csvAppendData [] [r1]).2 [r2] = (true, [r1]) := by
  constructor
  · have hany1 : t.any (fun row => row.symbol = r1.symbol) = false := by
      simp only [List.any_eq_false, decide_eq_true_eq]
      exact fun row hrow => hfresh row hrow
    have step1 : dbUpsertStockBasicInfo t r1 = t ++ [r1] := by
      simp [dbUpsertStockBasicInfo, hany1]
    rw [step1]
    have hany2 : (t ++ [r1]).any (fun row => row.symbol = r2.symbol) = true := by
      simp [List.any_append, hsym]
    simp only [dbUpsertStockBasicInfo, hany2, if_true, List.map_append]
    congr 1
    · calc t.map _ = t.map id :=
            List.map_congr_left (fun row hrow => by
              simp [hsym, hfresh row hrow])
        _ = t := List.map_id t
    · simp [hsym]
  · simp only [csvAppendData]
    simp [hsym]

/-- Witness for C1's amended claim at two concrete records sharing a
symbol. -/
theorem save_twice_one_record_witness :
    dbUpsertStockBasicInfo (dbUpsertStockBasicInfo []
        ⟨"SH600000", "600000", "A", 10, 1, 2, 3, 4, 5, 6, 7⟩)
      ⟨"SH600000", "600000", "B", 20, 21, 22, 23, 24, 25, 26, 27⟩ =
      [⟨"SH600000", "600000", "A", 20, 21, 22, 23, 24, 25, 26, 27⟩] ∧
    csvAppendData (csvAppendData []
        [⟨"SH600000", "600000", "A", 10, 1, 2, 3, 4, 5, 6, 7⟩]).2
      [⟨"SH600000", "600000", "B", 20, 21, 22, 23, 24, 25, 26, 27⟩] =
      (true, [⟨"SH600000", "600000", "A", 10, 1, 2, 3, 4, 5, 6, 7⟩]) :=
  save_twice_one_record []
    ⟨"SH600000", "600000", "A", 10, 1, 2, 3, 4, 5, 6, 7⟩
    ⟨"SH600000", "600000", "B", 20, 21, 22, 23, 24, 25, 26, 27⟩
    rfl (by simp)

/-! ## `DataRepository` financial-statement methods (C2)

`DataRepository.save_financial_statement_data` (last of its several
pasted definitions, lines 1491–1547 of `database.py`) opens with
`with self.get_connection() as conn:` — but `DataRepository.__init__`
and the class body define no attribute or method named
`get_connection` (only `storage_type`, `db_manager`, `stock_repo`,
`csv_storage` and the methods listed below).  The resulting
`AttributeError` is swallowed by the method's blanket
`except Exception`, which returns `False`; likewise
`get_financial_statement_data` returns `[]`. -/

/-- Names defined on `DataRepository`: the methods of its class body
plus the attributes assigned in `__init__`. -/
def dataRepositoryMembers : List String :=
  ["__init__", "get_stock_symbols", "get_unprocessed_finmain_stocks",
   "get_unprocessed_kline_stocks", "save_stock_basic_info",
   "save_company_info", "get_company_info_by_symbol", "save_finmain_data",
   "save_financial_statement_data", "get_financial_statement_data",
   "get_financial_statement_logs", "save_kline_data",
   "save_kline_data_batch", "log_kline_processing",
   "batch_save_stock_data", "get_storage_info", "create_backup",
   "storage_type", "db_manager", "stock_repo", "csv_storage"]

/-- Python attribute lookup `self.get_connection` on a `DataRepository`
instance: succeeds only if the name is among the class's members. -/
def dataRepoHasGetConnection : Bool :=
  dataRepositoryMembers.contains "get_connection"

/-- Backend state for the financial-statement tables: stored rows
`(table_name, symbol, fields)` and the `financial_statements_log` rows. -/
structure FinStatementsDB where
  rows : List (String × String × List (String × ℚ))
  logs : List (String × String × String)
  deriving Repr, DecidableEq

/-- `DataRepository.save_financial_statement_data(symbol, type, data)`:
the body's first statement resolves `self.get_connection`; on
`AttributeError` the `except` branch returns `False` with the state
untouched.  Were the attribute present, the body would `INSERT IGNORE`
the row (minus its `statement_type` key) into `financial_<type>` and
append a log row. -/
def dataRepoSaveFinancialStatementData (db : FinStatementsDB)
    (symbol stype : String) (data : List (String × ℚ)) :
    Bool × FinStatementsDB :=
  if dataRepoHasGetConnection then
    (true,
      { db with
        rows := db.rows ++
          [("financial_" ++ stype, symbol,
            data.filter (fun p => p.1 ≠ "statement_type"))]
        logs := db.logs ++ [(symbol, stype, "")] })
  else (false, db)

/-- `DataRepository.get_financial_statement_data(symbol, type)`: the
same failed `self.get_connection` resolution makes the `except` branch
return the empty list. -/
def dataRepoGetFinancialStatementData (db : FinStatementsDB)
    (symbol stype : String) : List (List (String × ℚ)) :=
  if dataRepoHasGetConnection then
    (db.rows.filter (fun p =>
      p.1 = "financial_" ++ stype && p.2.1 = symbol)).map
      (fun p => p.2.2)
  else []

/-- C2: for every symbol, statement type, data record and state, and in
both storage modes, `save_financial_statement_data` returns `False` and
persists nothing, and `get_financial_statement_data` returns the empty
list, because `self.get_connection` is an attribute `DataRepository`
never defines. -/
theorem data_repo_fin_statement_methods_dead (db : FinStatementsDB)
    (symbol stype : String) (data : List (String × ℚ)) :
    dataRepoSaveFinancialStatementData db symbol stype data = (false, db) ∧
    dataRepoGetFinancialStatementData db symbol stype = [] ∧
    dataRepoHasGetConnection = false := by
  refine ⟨?_, ?_, ?_⟩ <;>
    simp [dataRepoSaveFinancialStatementData,
      dataRepoGetFinancialStatementData, dataRepoHasGetConnection,
      dataRepositoryMembers]

/-! ## Financial-statements worklist (C3)

`FinancialStatementsCrawler.get_unprocessed_stocks` branches on
`hasattr(self.data_repo, 'csv_storage') and self.data_repo.csv_storage`
(true exactly in CSV mode — database mode sets the attribute to
`None`).  The CSV branch collects the `symbol_statementtype` strings of
the processing log (skipping rows with an empty symbol or type), keeps
stocks whose three-statement set is incomplete, and returns only the
first 30 (`unprocessed_symbols[:30]`).  The database branch would run
an anti-join `LIMIT 30` query, but it reaches it through
`self.data_repo.database` — an attribute `DataRepository` never defines
(its members are listed in `dataRepositoryMembers` above) — so the
`AttributeError` is swallowed by the method's blanket `except`, which
returns the empty list. -/

/-- The `processed_set` built from `get_financial_statement_logs()`
rows `(symbol, statement_type)`. -/
def processedSet (logs : List (String × String)) : List String :=
  logs.filterMap (fun p =>
    if p.1 ≠ "" ∧ p.2 ≠ "" then some (p.1 ++ "_" ++ p.2) else none)

/-- `all(f"{symbol}_{t}" in processed_set for t in [income, balance, cash])`. -/
def hasAllStatements (sym : String) (pset : List String) : Bool :=
  ["income", "balance", "cash"].all (fun t => pset.contains (sym ++ "_" ++ t))

/-- Stocks kept by the loop: non-empty symbols without all three
statement types logged. -/
def unprocessedFiltered (allStocks : List String)
    (logs : List (String × String)) : List String :=
  allStocks.filter (fun s =>
    s ≠ "" && !(hasAllStatements s (processedSet logs)))

/-- Python attribute lookup `self.data_repo.database` on a
`DataRepository` instance: the name is not among the class's members. -/
def dataRepoHasDatabaseAttr : Bool :=
  dataRepositoryMembers.contains "database"

/-- Ascending insertion (SQL `ORDER BY symbol ASC`). -/
def insertAsc (x : String) : List String → List String
  | [] => [x]
  | y :: ys => if x < y then x :: y :: ys else y :: insertAsc x ys

def sortAsc (l : List String) : List String :=
  l.foldr insertAsc []

/-- The SQL sub-select's `HAVING COUNT(DISTINCT statement_type) = 3`
test over the three types. -/
def sqlHasAllThree (s : String) (logs : List (String × String)) : Bool :=
  ["income", "balance", "cash"].all (fun t => logs.contains (s, t))

/-- The database-branch anti-join query (distinct symbols without all
three types, ascending, `LIMIT 30`, empty symbols dropped by the list
comprehension).  Never executed: the branch fails on attribute
resolution before `execute_query` is reached. -/
def sqlUnprocessedStocks (stocks : List String)
    (logs : List (String × String)) : List String :=
  ((sortAsc ((stocks.filter
      (fun s => !(sqlHasAllThree s logs))).dedup)).take 30).filter
    (fun s => s ≠ "")

/-- `FinancialStatementsCrawler.get_unprocessed_stocks`: in CSV mode
the filtered worklist truncated to its first 30 entries; in database
mode the body resolves `self.data_repo.database` first, and on the
`AttributeError` the `except` branch returns `[]`. -/
def getUnprocessedStocks (csvMode : Bool) (allStocks : List String)
    (logs : List (String × String)) : List String :=
  if csvMode then
    (unprocessedFiltered allStocks logs).take 30
  else
    if dataRepoHasDatabaseAttr then sqlUnprocessedStocks allStocks logs
    else []

/-- In database mode the worklist is always empty: `DataRepository` has
no `database` attribute. -/
theorem getUnprocessedStocks_db_eq_nil (allStocks : List String)
    (logs : List (String × String)) :
    getUnprocessedStocks false allStocks logs = [] := by
  simp [getUnprocessedStocks, dataRepoHasDatabaseAttr,
    dataRepositoryMembers]

/-- An element whose first occurrence lies before position `n` survives
`take n`. -/
theorem mem_take_of_indexOf_lt {α : Type} [DecidableEq α] :
    ∀ (l : List α) (n : Nat) (a : α), a ∈ l → l.indexOf a < n → a ∈ l.take n
  | [], _, a, h, _ => absurd h (List.not_mem_nil a)
  | b :: t, n, a, h, hidx => by
    by_cases hab : b = a
    · subst hab
      have hn : 0 < n := Nat.lt_of_le_of_lt (Nat.zero_le _) hidx
      obtain ⟨m, rfl⟩ := Nat.exists_eq_add_of_lt hn
      simp [List.take_succ_cons]
    · rw [List.indexOf_cons_ne t hab] at hidx
      have ha : a ∈ t := by
        rcases List.mem_cons.mp h with h' | h'
        · exact absurd h'.symm hab
        · exact h'
      obtain ⟨m, rfl⟩ : ∃ m, n = m + 1 :=
        ⟨n - 1, by omega⟩
      have := mem_take_of_indexOf_lt t m a ha (by omega)
      simp [List.take_succ_cons, this]

/-- C3 counterexample: with an empty processing log every security
lacks all three statements, yet (a) in CSV mode the 31st of 31
securities is absent from the worklist because of the
`unprocessed_symbols[:30]` truncation, and (b) in database mode even a
sole unlogged security is absent, because the branch dies on the
missing `database` attribute and the `except` returns `[]`. -/
theorem statements_worklist_cap_counterexample :
    ("s31" ∈ (["s01", "s02", "s03", "s04", "s05", "s06", "s07", "s08",
      "s09", "s10", "s11", "s12", "s13", "s14", "s15", "s16", "s17",
      "s18", "s19", "s20", "s21", "s22", "s23", "s24", "s25", "s26",
      "s27", "s28", "s29", "s30", "s31"] : List String)) ∧
    (∀ t ∈ ["income", "balance", "cash"],
      ("s31", t) ∉ ([] : List (String × String))) ∧
    "s31" ∉ getUnprocessedStocks true
      ["s01", "s02", "s03", "s04", "s05", "s06", "s07", "s08",
       "s09", "s10", "s11", "s12", "s13", "s14", "s15", "s16", "s17",
       "s18", "s19", "s20", "s21", "s22", "s23", "s24", "s25", "s26",
       "s27", "s28", "s29", "s30", "s31"] [] ∧
    "s01" ∉ getUnprocessedStocks false ["s01"] [] := by
  refine ⟨by decide, by decide, ?_, ?_⟩ <;> decide

/-- C3 as amended: in either mode, a security with all three statement
types logged is never reported.  In CSV mode a security with fewer
than all three logged is reported provided it falls among the first 30
such securities (`unprocessed_symbols[:30]`).  In database mode the
worklist is always empty — the branch dereferences
`self.data_repo.database`, an attribute `DataRepository` never
defines, and the swallowed `AttributeError` yields `[]` — so no
security is ever reported there. -/
theorem statements_worklist_gate (allStocks : List String)
    (logs : List (String × String)) (sym : String) :
    (∀ csvMode,
      (∀ t ∈ ["income", "balance", "cash"], (sym, t) ∈ logs) →
      sym ∉ getUnprocessedStocks csvMode allStocks logs) ∧
    (sym ∈ unprocessedFiltered allStocks logs →
      (unprocessedFiltered allStocks logs).indexOf sym < 30 →
      sym ∈ getUnprocessedStocks true allStocks logs) ∧
    getUnprocessedStocks false allStocks logs = [] := by
  refine ⟨?_, ?_, getUnprocessedStocks_db_eq_nil allStocks logs⟩
  · intro csvMode h3 hmem
    cases csvMode with
    | false =>
      rw [getUnprocessedStocks_db_eq_nil] at hmem
      exact (List.not_mem_nil sym) hmem
    | true =>
      have hmem2 : sym ∈ (unprocessedFiltered allStocks logs).take 30 := by
        simpa [getUnprocessedStocks] using hmem
      have hmem' : sym ∈ unprocessedFiltered allStocks logs :=
        List.mem_of_mem_take hmem2
      have hcond := (List.mem_filter.mp hmem').2
      by_cases hsym : sym = ""
      · simp [hsym] at hcond
      · have hall : hasAllStatements sym (processedSet logs) = true := by
          simp only [hasAllStatements, List.all_eq_true]
          intro t ht
          have htlog : (sym, t) ∈ logs := h3 t ht
          have htne : t ≠ "" := by
            fin_cases ht <;> simp
          have : (sym ++ "_" ++ t) ∈ processedSet logs := by
            apply List.mem_filterMap.mpr
            exact ⟨(sym, t), htlog, by simp [hsym, htne]⟩
          simpa using this
        rw [hall] at hcond
        simp at hcond
  · intro hmem hidx
    have : sym ∈ (unprocessedFiltered allStocks logs).take 30 :=
      mem_take_of_indexOf_lt _ 30 sym hmem hidx
    simpa [getUnprocessedStocks] using this

/-- Witness for C3's amended claim: with securities A and B and A's
three statements logged, in CSV mode A is excluded and B (an
unprocessed security in the first 30) is reported; in database mode
the worklist is empty. -/
theorem statements_worklist_gate_witness :
    "A" ∉ getUnprocessedStocks true ["A", "B"]
      [("A", "income"), ("A", "balance"), ("A", "cash")] ∧
    "B" ∈ getUnprocessedStocks true ["A", "B"]
      [("A", "income"), ("A", "balance"), ("A", "cash")] ∧
    getUnprocessedStocks false ["A", "B"]
      [("A", "income"), ("A", "balance"), ("A", "cash")] = [] := by
  refine ⟨?_, ?_, ?_⟩
  · exact (statements_worklist_gate ["A", "B"] _ "A").1 true (by decide)
  · exact (statements_worklist_gate ["A", "B"] _ "B").2.1 (by decide) (by decide)
  · exact (statements_worklist_gate ["A", "B"] _ "A").2.2

/-! ## Derived financial ratios (C6)

`FinancialStatementsCrawler.calculate_financial_ratios`: statement data
is a mapping from field name to the first element of the source value
pair, extracted through `safe_number(data.get(key, [0])[0])` (absent
fields read as `0`, modelled by `getF`).  The `ratios` dict is built by
sequential insertion of distinct keys, modelled as concatenation of the
guarded segments in source order.  Every division in the body is
guarded by a strict positivity (or non-zero) test of its denominator,
and the whole body is wrapped in a blanket `except` that returns the
partial `ratios`, so the function never raises. -/

/-- Python's substring test `sub in s`. -/
def pyContains (s sub : String) : Bool :=
  (s.splitOn sub).length > 1

/-- Report-period length in days, from substring matching on the
report name (一季报 → 90, 中报 → 181, 三季报 → 273, else 365). -/
def statementDays (reportName : String) : ℚ :=
  if pyContains reportName "一季报" then 90
  else if pyContains reportName "中报" then 181
  else if pyContains reportName "三季报" then 273
  else 365

def calcFinancialRatios (balance income cash : List (String × ℚ))
    (reportName : String) : List (String × ℚ) :=
  let ta := getF balance "total_assets"
  let tca := getF balance "total_current_assets"
  let tcl := getF balance "total_current_liab"
  let the := getF balance "total_holders_equity"
  let financeAsset :=
    getF balance "tradable_fnncl_assets" + getF balance "interest_receivable" +
    getF balance "dividend_receivable" + getF balance "to_sale_asset" +
    getF balance "nca_due_within_one_year" +
    getF balance "salable_financial_assets" +
    getF balance "held_to_maturity_invest" +
    getF balance "other_eq_ins_invest" +
    getF balance "other_illiquid_fnncl_assets" +
    getF balance "invest_property"
  let ltEquityInvest := getF balance "lt_equity_invest"
  let businessAsset := ta - financeAsset - ltEquityInvest
  let longBusinessAsset :=
    getF balance "fixed_asset_sum" + getF balance "construction_in_process_sum" +
    getF balance "intangible_assets" + getF balance "goodwill"
  let tr := getF income "total_revenue"
  let operatingCost := getF income "operating_cost"
  let operatingCosts := getF income "operating_costs"
  let np := getF income "net_profit"
  let tax := getF income "income_tax_expenses"
  let fin := getF income "financing_expenses"
  let pta := getF income "profit_total_amt"
  let times := 365 / statementDays reportName
  (if 0 < ta then
    [("finance_asset_percent", financeAsset / ta),
     ("business_asset_percent", businessAsset / ta),
     ("lt_equity_invest_percent", ltEquityInvest / ta),
     ("long_business_asset_percent", longBusinessAsset / ta)]
   else []) ++
  (if 0 < the then
    [("z_business_asset_percent", (tca - tcl) / the),
     ("finance_turnover", ta / the)]
   else []) ++
  (if 0 < tr - operatingCosts then
    [("business_lever", (tr - operatingCost) / (tr - operatingCosts))]
   else []) ++
  (if 0 < tr then
    [("per_benefit_percent", (np + tax + fin) / tr)]
   else []) ++
  (if 0 < longBusinessAsset then
    [("long_asset_turnover_percent", tr / longBusinessAsset * times)]
   else []) ++
  (if 0 < tca - tcl then
    [("business_turnover_percent", tr / (tca - tcl) * times)]
   else []) ++
  (if 0 < np + tax + fin then
    [("financial_cost_percent", (np + tax) / (np + tax + fin))]
   else []) ++
  (if 0 < np + tax then
    [("tax_cost_percent", np / (np + tax))]
   else []) ++
  (if 0 < pta then
    [("real_benefit_percent", getF income "net_profit_after_nrgal_atsolc" / pta)]
   else []) ++
  (if cash ≠ [] then
    let ncfFromOa := getF cash "ncf_from_oa"
    let netInvestment :=
      getF cash "cash_paid_for_assets" - getF cash "net_cash_of_disposal_assets"
    let netMerger :=
      getF cash "net_cash_amt_from_branch" - getF cash "net_cash_of_disposal_branch"
    (if 0 < pta then [("benefit_percentage", ncfFromOa / pta)] else []) ++
    (if 0 < tr then
      [("op_percentage", getF cash "cash_received_of_sales_service" / tr)]
     else []) ++
    [("net_investment", netInvestment), ("out_lay", netInvestment)] ++
    (if 0 < longBusinessAsset then
      [("out_lay_percent", netInvestment / longBusinessAsset)]
     else []) ++
    [("net_merger", netMerger)] ++
    (if netInvestment + netMerger ≠ 0 then
      [("cash_satify_percent", ncfFromOa / (netInvestment + netMerger))]
     else [])
   else []) ++
  [("finance_asset", financeAsset), ("business_asset", businessAsset),
   ("lt_equity_invest", ltEquityInvest), ("goodwill", getF balance "goodwill"),
   ("long_business_asset", longBusinessAsset),
   ("total_current_assets", tca), ("total_current_liab", tcl),
   ("total_revenue", tr), ("net_profit", np), ("profit_total_amt", pta)]

/-- Membership of a key in the keys of a conditionally-present
segment. -/
theorem mem_map_fst_ite_nil {c : Prop} [Decidable c]
    (l : List (String × ℚ)) (k : String) :
    (k ∈ (if c then l else []).map Prod.fst) ↔ (c ∧ k ∈ l.map Prod.fst) := by
  split <;> simp_all

/-- C6: ratio computation boundary.  With `total_assets == 0` the
computation does not raise (it is a total function here, matching the
guarded divisions and blanket `except` of the source) and omits every
ratio whose denominator is `total_assets`; with
`net_investment + net_merger == 0` it omits `cash_satify_percent`. -/
theorem calc_ratios_boundary (balance income cash : List (String × ℚ))
    (reportName : String)
    (h0 : getF balance "total_assets" = 0)
    (hc : getF cash "cash_paid_for_assets" -
          getF cash "net_cash_of_disposal_assets" +
          (getF cash "net_cash_amt_from_branch" -
           getF cash "net_cash_of_disposal_branch") = 0) :
    (∀ k ∈ (["finance_asset_percent", "business_asset_percent",
             "lt_equity_invest_percent", "long_business_asset_percent"] :
             List String),
      k ∉ (calcFinancialRatios balance income cash reportName).map Prod.fst) ∧
    "cash_satify_percent" ∉
      (calcFinancialRatios balance income cash reportName).map Prod.fst := by
  constructor
  · intro k hk hmem
    simp only [calcFinancialRatios, List.map_append, List.mem_append,
      mem_map_fst_ite_nil] at hmem
    fin_cases hk <;>
      simp_all [h0, hc]
  · intro hmem
    simp only [calcFinancialRatios, List.map_append, List.mem_append,
      mem_map_fst_ite_nil] at hmem
    simp_all [h0, hc]

/-- The witness cash-flow section has zero net investment and merger
flows. -/
theorem cashZeroFlows :
    getF [("ncf_from_oa", 5)] "cash_paid_for_assets" -
    getF [("ncf_from_oa", 5)] "net_cash_of_disposal_assets" +
    (getF [("ncf_from_oa", 5)] "net_cash_amt_from_branch" -
     getF [("ncf_from_oa", 5)] "net_cash_of_disposal_branch") = 0 := by
  norm_num [show getF [("ncf_from_oa", 5)] "cash_paid_for_assets" = 0 from rfl,
    show getF [("ncf_from_oa", 5)] "net_cash_of_disposal_assets" = 0 from rfl,
    show getF [("ncf_from_oa", 5)] "net_cash_amt_from_branch" = 0 from rfl,
    show getF [("ncf_from_oa", 5)] "net_cash_of_disposal_branch" = 0 from rfl]

/-- Witness for C6: an empty balance sheet (`total_assets` reads as 0)
and a cash-flow section whose investment and merger net flows are zero:
the `total_assets`-denominated ratios and `cash_satify_percent` are
absent. -/
theorem calc_ratios_boundary_witness :
    "finance_asset_percent" ∉
      (calcFinancialRatios [] [] [("ncf_from_oa", 5)] "").map Prod.fst ∧
    "cash_satify_percent" ∉
      (calcFinancialRatios [] [] [("ncf_from_oa", 5)] "").map Prod.fst :=
  ⟨(calc_ratios_boundary [] [] [("ncf_from_oa", 5)] ""
      rfl cashZeroFlows).1 "finance_asset_percent" (by simp),
   (calc_ratios_boundary [] [] [("ncf_from_oa", 5)] ""
      rfl cashZeroFlows).2⟩

/-! ## Comprehensive analysis and the `cash`/`cash_flow` key mismatch (C9)

`get_all_statements` stores each successfully fetched statement list
under its type name from `['income', 'balance', 'cash']`;
`get_comprehensive_financial_analysis` later looks the cash-flow data
up under the key `'cash_flow'`.  A statement item is modelled by its
report date, report name and numeric field map (the raw dicts also
carry `symbol`/`statement_type`/crawl-time stamps, which the analysis
does not read). -/

structure StmtItem where
  reportDate : String
  reportName : String
  fields : List (String × ℚ)
  deriving Repr, DecidableEq

/-- `FinancialStatementsCrawler.get_all_statements`: iterate the types
`income`, `balance`, `cash` in order, adding a key for each fetch that
returned data. -/
def getAllStatements (inc bal cash : Option (List StmtItem)) :
    List (String × List StmtItem) :=
  (match inc with | some d => [("income", d)] | none => []) ++
  (match bal with | some d => [("balance", d)] | none => []) ++
  (match cash with | some d => [("cash", d)] | none => [])

/-- `statements.get(key)` of the comprehensive analysis: the item list
under a key, `[]` when the key is absent. -/
def lookupStatements (statements : List (String × List StmtItem))
    (key : String) : List StmtItem :=
  (statements.lookup key).getD []

/-- First item of a list matching a report date (the `break`-terminated
search loops of `get_comprehensive_financial_analysis`). -/
def findByDate (items : List StmtItem) (d : String) : Option StmtItem :=
  items.find? (fun it => it.reportDate = d)

/-- Insertion into a descending-sorted list. -/
def insertDesc (x : String) : List String → List String
  | [] => [x]
  | y :: ys => if y < x then x :: y :: ys else y :: insertDesc x ys

/-- `sorted(report_periods, reverse=True)`. -/
def sortDesc (l : List String) : List String :=
  l.foldr insertDesc []

/-- The set of report periods over all statement lists (non-empty
dates, deduplicated). -/
def collectReportPeriods (statements : List (String × List StmtItem)) :
    List String :=
  ((statements.flatMap (fun p => p.2.map (·.reportDate))).filter
    (fun d => d ≠ "")).dedup

/-- Per-period output record: the computed ratios plus the
`report_date`/`report_name` stamps appended by the analysis. -/
structure RatioRecord where
  reportDate : String
  reportName : String
  ratios : List (String × ℚ)
  deriving Repr, DecidableEq

/-- `get_comprehensive_financial_analysis`, per-period core: for each
collected period (descending), find the balance, income and — under the
key `'cash_flow'` — cash items for that date; when balance and income
are both found, compute the ratios (an unfound cash item contributes
the empty map). -/
def getComprehensiveFinancialAnalysis
    (statements : List (String × List StmtItem)) :
    List (String × RatioRecord) :=
  (sortDesc (collectReportPeriods statements)).filterMap (fun d =>
    match findByDate (lookupStatements statements "balance") d,
          findByDate (lookupStatements statements "income") d with
    | some b, some i =>
        let cashFields :=
          match findByDate (lookupStatements statements "cash_flow") d with
          | some c => c.fields
          | none => []
        some (d, ⟨d, i.reportName,
          calcFinancialRatios b.fields i.fields cashFields i.reportName⟩)
    | _, _ => none)

/-- The seven cash-flow-derived ratio keys. -/
def cashFlowRatioKeys : List String :=
  ["benefit_percentage", "op_percentage", "net_investment", "out_lay",
   "out_lay_percent", "net_merger", "cash_satify_percent"]

/-- With an empty cash-flow map, `calculate_financial_ratios` never
emits a cash-flow-derived key. -/
theorem calcRatios_empty_cash_no_cash_keys
    (balance income : List (String × ℚ)) (rn k : String)
    (hk : k ∈ cashFlowRatioKeys) :
    k ∉ (calcFinancialRatios balance income [] rn).map Prod.fst := by
  intro hmem
  simp only [calcFinancialRatios, List.map_append, List.mem_append,
    mem_map_fst_ite_nil] at hmem
  fin_cases hk <;> simp_all

/-- The statement map built by `get_all_statements` never has a
`cash_flow` key. -/
theorem getAllStatements_no_cash_flow_key
    (inc bal cash : Option (List StmtItem)) :
    lookupStatements (getAllStatements inc bal cash) "cash_flow" = [] := by
  cases inc <;> cases bal <;> cases cash <;>
    simp [getAllStatements, lookupStatements, List.lookup]

/-- C9: every per-period ratio record of
`get_comprehensive_financial_analysis`, run on statements assembled by
`get_all_statements`, is free of all seven cash-flow-derived keys: the
statements carry the cash data under `'cash'` but the analysis looks
for `'cash_flow'`. -/
theorem comprehensive_analysis_no_cash_ratios
    (inc bal cash : Option (List StmtItem)) (d : String) (rec : RatioRecord)
    (hmem : (d, rec) ∈
      getComprehensiveFinancialAnalysis (getAllStatements inc bal cash)) :
    ∀ k ∈ cashFlowRatioKeys, k ∉ rec.ratios.map Prod.fst := by
  intro k hk
  obtain ⟨p, _, hf⟩ := List.mem_filterMap.mp hmem
  rw [getAllStatements_no_cash_flow_key] at hf
  cases hb : findByDate (lookupStatements (getAllStatements inc bal cash)
      "balance") p with
  | none => rw [hb] at hf; cases hf
  | some b =>
    cases hi : findByDate (lookupStatements (getAllStatements inc bal cash)
        "income") p with
    | none => rw [hb, hi] at hf; cases hf
    | some i =>
      rw [hb, hi] at hf
      simp only [findByDate, List.find?_nil, Option.some.injEq,
        Prod.mk.injEq] at hf
      obtain ⟨-, hrec⟩ := hf
      rw [← hrec]
      exact calcRatios_empty_cash_no_cash_keys b.fields i.fields
        i.reportName k hk

/-- Witness for C9: a concrete run with one period of all three
statements (stored under `income`/`balance`/`cash`) yields a record for
that period containing no cash-flow-derived key. -/
theorem comprehensive_analysis_no_cash_ratios_witness :
    ∃ rec, ("2023-12-31", rec) ∈
      getComprehensiveFinancialAnalysis (getAllStatements
        (some [⟨"2023-12-31", "年报", [("total_revenue", 100)]⟩])
        (some [⟨"2023-12-31", "年报", [("total_assets", 200)]⟩])
        (some [⟨"2023-12-31", "年报", [("ncf_from_oa", 5)]⟩])) ∧
      "net_investment" ∉ rec.ratios.map Prod.fst := by
  refine ⟨⟨"2023-12-31", "年报",
    calcFinancialRatios [("total_assets", 200)] [("total_revenue", 100)]
      [] "年报"⟩, ?_, ?_⟩
  · simp [getComprehensiveFinancialAnalysis, getAllStatements,
      collectReportPeriods, sortDesc, insertDesc, lookupStatements,
      findByDate, List.lookup, List.find?]
  · exact comprehensive_analysis_no_cash_ratios
      (some [⟨"2023-12-31", "年报", [("total_revenue", 100)]⟩])
      (some [⟨"2023-12-31", "年报", [("total_assets", 200)]⟩])
      (some [⟨"2023-12-31", "年报", [("ncf_from_oa", 5)]⟩])
      "2023-12-31" _
      (by simp [getComprehensiveFinancialAnalysis, getAllStatements,
        collectReportPeriods, sortDesc, insertDesc, lookupStatements,
        findByDate, List.lookup, List.find?])
      "net_investment" (by simp [cashFlowRatioKeys])

/-! ## Authentication manager (`XueqiuAuth`, C7 and C8)

The environment captures everything outside the manager's control: the
outcome of the cookie-less homepage GET of `_get_base_cookies` (`none`
for a non-200 status or transport error, otherwise the harvested
Set-Cookie map), the outcome of the live validation GET of
`_validate_cookies` as a predicate on the candidate cookie map, the
`acw_sc__v2` generation result, the persisted cookie file with its
write timestamp, and the current time.  Each operation returns, besides
its value, the number of HTTP requests it issued. -/

structure AuthEnv where
  homepage : Option (List (String × String))
  validateOk : List (String × String) → Bool
  acwToken : Option String
  savedFile : Option (List (String × String) × Nat)
  now : Nat

/-- `XueqiuAuth._validate_cookies`: empty map or missing `u`/`s` fails
without touching the network; otherwise one homepage GET decides. -/
def validateCookies (env : AuthEnv) (cookies : List (String × String)) :
    Bool × Nat :=
  if cookies = [] then (false, 0)
  else if !(hasKey cookies "u") then (false, 0)
  else if !(hasKey cookies "s") then (false, 0)
  else (env.validateOk cookies, 1)

/-- `XueqiuAuth._load_saved_cookies`: the persisted map when the file
exists and is younger than 24 hours, else the empty map.  Reads only
the file — issues no HTTP request. -/
def loadSavedCookies (env : AuthEnv) : List (String × String) :=
  match env.savedFile with
  | some (m, ts) => if env.now - ts < 86400 then m else []
  | none => []

/-- `XueqiuAuth._save_cookies`: write the map and the current timestamp
to the cookie file. -/
def saveCookies (env : AuthEnv) (cookies : List (String × String)) :
    AuthEnv :=
  { env with savedFile := some (cookies, env.now) }

/-- `XueqiuAuth._get_base_cookies`: one cookie-less homepage GET; on
success, default `u` to `"0"` and `s` to `"default_session"` if the
harvest lacks them. -/
def getBaseCookies (env : AuthEnv) :
    Option (List (String × String)) × Nat :=
  match env.homepage with
  | some harvested =>
      let c1 := if hasKey harvested "u" then harvested
                else harvested ++ [("u", "0")]
      let c2 := if hasKey c1 "s" then c1
                else c1 ++ [("s", "default_session")]
      (some c2, 1)
  | none => (none, 1)

/-- `XueqiuAuth._generate_fresh_cookies`: base cookies, then the
`acw_sc__v2` token merged and re-validated; a failed validation falls
back to the base cookies, a failed base fetch yields `None`. -/
def generateFreshCookies (env : AuthEnv) :
    Option (List (String × String)) × Nat :=
  match getBaseCookies env with
  | (none, n) => (none, n)
  | (some base, n) =>
    match env.acwToken with
    | none => (some base, n)
    | some t =>
      let full := dictSet base "acw_sc__v2" t
      let (ok, m) := validateCookies env full
      if ok then (some full, n + m) else (some base, n + m)

/-- `XueqiuAuth.get_cookies()` (default `force_refresh=False`): the
saved map if present and validated, else freshly generated cookies
(persisting them), else the empty map.  Returns the cookie map, the
number of HTTP requests issued, and the updated environment. -/
def getCookies (env : AuthEnv) :
    List (String × String) × Nat × AuthEnv :=
  let saved := loadSavedCookies env
  let vres := if saved ≠ [] then validateCookies env saved else (false, 0)
  if saved ≠ [] ∧ vres.1 then (saved, vres.2, env)
  else
    match generateFreshCookies env with
    | (some m, ng) => (m, vres.2 + ng, saveCookies env m)
    | (none, ng) => ([], vres.2 + ng, env)

/-- `XueqiuAuth.get_session` (first call, `self.session is None`): the
new session's cookie jar is `session.cookies.update(get_cookies())`. -/
def getSessionCookies (env : AuthEnv) : List (String × String) :=
  (getCookies env).1

/-- `List.lookup` on a cons cell, with the `BEq` test unfolded to a
propositional `if`. -/
theorem lookup_cons {β : Type} (k a : String) (v : β)
    (l : List (String × β)) :
    List.lookup k ((a, v) :: l) =
      if k = a then some v else List.lookup k l := by
  cases hk : k == a with
  | true => simp [List.lookup, hk, eq_of_beq hk]
  | false =>
    have hne : k ≠ a := by intro h; subst h; simp at hk
    simp [List.lookup, hk, hne]

theorem hasKey_append (m m' : List (String × String)) (k : String) :
    hasKey (m ++ m') k = (hasKey m k || hasKey m' k) := by
  induction m with
  | nil => simp [hasKey]
  | cons a t ih =>
    obtain ⟨a1, a2⟩ := a
    by_cases hk : k = a1
    · simp [hasKey, lookup_cons, hk]
    · simp only [List.cons_append, hasKey, lookup_cons, if_neg hk] at ih ⊢
      exact ih

/-- Filtering away another key keeps an existing binding visible. -/
theorem hasKey_filter_ne (m : List (String × String)) (k k' : String)
    (hne : k' ≠ k) (h : hasKey m k' = true) :
    hasKey (m.filter (fun p => p.1 ≠ k)) k' = true := by
  induction m with
  | nil => simp [hasKey] at h
  | cons a t ih =>
    obtain ⟨a1, a2⟩ := a
    unfold hasKey at h ⊢
    by_cases hk : k' = a1
    · subst hk
      rw [show List.filter (fun p => decide (p.1 ≠ k)) ((k', a2) :: t) =
          (k', a2) :: List.filter (fun p => decide (p.1 ≠ k)) t from by
        simp [List.filter_cons, hne]]
      rw [lookup_cons, if_pos rfl]
      rfl
    · rw [lookup_cons, if_neg hk] at h
      have ht := ih h
      unfold hasKey at ht
      by_cases hak : a1 = k
      · rw [show List.filter (fun p => decide (p.1 ≠ k)) ((a1, a2) :: t) =
            List.filter (fun p => decide (p.1 ≠ k)) t from by
          simp [List.filter_cons, hak]]
        exact ht
      · rw [show List.filter (fun p => decide (p.1 ≠ k)) ((a1, a2) :: t) =
            (a1, a2) :: List.filter (fun p => decide (p.1 ≠ k)) t from by
          simp [List.filter_cons, hak]]
        rw [lookup_cons, if_neg hk]
        exact ht

/-- Python's `{**base, k: v}` keeps every key of `base`. -/
theorem hasKey_dictSet_of_hasKey (m : List (String × String))
    (k v k' : String) (h : hasKey m k' = true) :
    hasKey (dictSet m k v) k' = true := by
  unfold dictSet
  rw [hasKey_append]
  by_cases hkk : k' = k
  · have : hasKey [(k, v)] k' = true := by
      unfold hasKey; rw [lookup_cons, if_pos hkk]; rfl
    rw [this, Bool.or_true]
  · rw [hasKey_filter_ne m k k' hkk h, Bool.true_or]

/-- A validated cookie map contains `u` and `s`. -/
theorem validateCookies_true_keys (env : AuthEnv)
    (c : List (String × String)) (h : (validateCookies env c).1 = true) :
    hasKey c "u" = true ∧ hasKey c "s" = true := by
  unfold validateCookies at h
  split_ifs at h
  simp_all

/-- Successfully harvested base cookies contain `u` and `s` (defaults
are filled in when the harvest lacks them). -/
theorem getBaseCookies_keys (env : AuthEnv)
    (base : List (String × String)) (n : Nat)
    (h : getBaseCookies env = (some base, n)) :
    hasKey base "u" = true ∧ hasKey base "s" = true := by
  unfold getBaseCookies at h
  cases hh : env.homepage with
  | none => rw [hh] at h; cases h
  | some harvested =>
    rw [hh] at h
    simp only [Prod.mk.injEq, Option.some.injEq] at h
    obtain ⟨rfl, -⟩ := h
    have hu1 : hasKey (if hasKey harvested "u" then harvested
        else harvested ++ [("u", "0")]) "u" = true := by
      cases hu : hasKey harvested "u" with
      | true => simp [hu]
      | false => simp [hu, hasKey_append, hasKey, List.lookup]
    have hs1 : ∀ c1 : List (String × String),
        hasKey (if hasKey c1 "s" then c1
          else c1 ++ [("s", "default_session")]) "s" = true := by
      intro c1
      cases hsc : hasKey c1 "s" with
      | true => simp [hsc]
      | false => simp [hsc, hasKey_append, hasKey, List.lookup]
    have hu2 : ∀ c1 : List (String × String), hasKey c1 "u" = true →
        hasKey (if hasKey c1 "s" then c1
          else c1 ++ [("s", "default_session")]) "u" = true := by
      intro c1 h1
      cases hsc : hasKey c1 "s" with
      | true => simp [hsc, h1]
      | false => simp [hsc, hasKey_append, h1]
    exact ⟨hu2 _ hu1, hs1 _⟩

/-- Freshly generated cookies, when generation succeeds, contain `u`
and `s`, whether or not the anti-automation token was merged. -/
theorem generateFreshCookies_keys (env : AuthEnv)
    (m : List (String × String)) (n : Nat)
    (h : generateFreshCookies env = (some m, n)) :
    hasKey m "u" = true ∧ hasKey m "s" = true := by
  unfold generateFreshCookies at h
  cases hb : getBaseCookies env with
  | mk ob nb =>
    rw [hb] at h
    cases ob with
    | none => cases h
    | some base =>
      obtain ⟨hu, hs⟩ := getBaseCookies_keys env base nb hb
      cases ht : env.acwToken with
      | none =>
        rw [ht] at h
        simp only [Prod.mk.injEq, Option.some.injEq] at h
        obtain ⟨rfl, -⟩ := h
        exact ⟨hu, hs⟩
      | some t =>
        rw [ht] at h
        simp only at h
        split at h <;>
          (simp only [Prod.mk.injEq, Option.some.injEq] at h;
           obtain ⟨rfl, -⟩ := h)
        · exact ⟨hasKey_dictSet_of_hasKey base "acw_sc__v2" t "u" hu,
            hasKey_dictSet_of_hasKey base "acw_sc__v2" t "s" hs⟩
        · exact ⟨hu, hs⟩

/-- C7 counterexample: when the cookie file is absent and the homepage
GET fails (e.g. the site is unreachable), `get_cookies` returns the
empty map and the session handed to the caller lacks both `u` and `s`
— so an execution in which a caller receives a session without those
cookies does exist. -/
theorem get_session_missing_cookies_counterexample :
    getSessionCookies ⟨none, fun _ => false, none, none, 0⟩ = [] ∧
    hasKey (getSessionCookies ⟨none, fun _ => false, none, none, 0⟩)
      "u" = false ∧
    hasKey (getSessionCookies ⟨none, fun _ => false, none, none, 0⟩)
      "s" = false := by
  refine ⟨?_, ?_, ?_⟩ <;>
    simp [getSessionCookies, getCookies, loadSavedCookies,
      generateFreshCookies, getBaseCookies, validateCookies, hasKey]

/-- C7 as amended: whenever `get_cookies` produces a non-empty map —
i.e. on every execution in which some acquisition strategy succeeds —
the session's cookie jar contains `u` and `s`; when every strategy
fails (no valid saved file and a failed homepage fetch) the session's
jar is empty. -/
theorem get_session_cookie_guarantee (env : AuthEnv)
    (h : getSessionCookies env ≠ []) :
    hasKey (getSessionCookies env) "u" = true ∧
    hasKey (getSessionCookies env) "s" = true := by
  unfold getSessionCookies getCookies at h ⊢
  by_cases hcond : loadSavedCookies env ≠ [] ∧
      (if loadSavedCookies env ≠ [] then
        validateCookies env (loadSavedCookies env) else (false, 0)).1
  · rw [if_pos hcond] at h ⊢
    obtain ⟨hne, hv⟩ := hcond
    rw [if_pos hne] at hv
    exact validateCookies_true_keys env _ hv
  · rw [if_neg hcond] at h ⊢
    cases hg : generateFreshCookies env with
    | mk og ng =>
      cases og with
      | none => simp [hg] at h
      | some m =>
        simp only [hg] at h ⊢
        exact generateFreshCookies_keys env m ng hg

/-- Witness for C7's amended claim: a homepage fetch that harvests no
cookies still yields a session with the defaulted `u`/`s` pair. -/
theorem get_session_cookie_guarantee_witness :
    hasKey (getSessionCookies
      ⟨some [], fun _ => false, none, none, 0⟩) "u" = true ∧
    hasKey (getSessionCookies
      ⟨some [], fun _ => false, none, none, 0⟩) "s" = true :=
  get_session_cookie_guarantee ⟨some [], fun _ => false, none, none, 0⟩
    (by simp [getSessionCookies, getCookies, loadSavedCookies,
      generateFreshCookies, getBaseCookies, hasKey])

/-- C8 counterexample: persist `{u: "1", s: "x"}` and reload through
`get_cookies` at the same instant (well inside the 24-hour window).
The persisted map is returned, but the reload issues one HTTP request
— the live validation GET of `_validate_cookies` — so the reload does
contact a network endpoint. -/
theorem cookie_reload_contacts_network_counterexample :
    (getCookies (saveCookies ⟨none, fun _ => true, none, none, 1000⟩
        [("u", "1"), ("s", "x")])).1 = [("u", "1"), ("s", "x")] ∧
    (getCookies (saveCookies ⟨none, fun _ => true, none, none, 1000⟩
        [("u", "1"), ("s", "x")])).2.1 ≠ 0 := by
  constructor <;>
    simp [getCookies, saveCookies, loadSavedCookies, validateCookies,
      hasKey, List.lookup]

/-- C8 as amended: within the 24-hour staleness window,
`_load_saved_cookies` alone returns a map equal to the one persisted
(and, by construction, performs no HTTP request), while `get_cookies`
returns the persisted map after issuing exactly one live-validation
request, provided the map carries `u` and `s` and the validation GET
succeeds. -/
theorem cookie_file_roundtrip (env : AuthEnv)
    (m : List (String × String)) (t2 : Nat)
    (hu : hasKey m "u" = true) (hs : hasKey m "s" = true)
    (hfresh : t2 - env.now < 86400)
    (hval : env.validateOk m = true) :
    loadSavedCookies { saveCookies env m with now := t2 } = m ∧
    getCookies { saveCookies env m with now := t2 } =
      (m, 1, { saveCookies env m with now := t2 }) := by
  have hm : m ≠ [] := by
    intro hnil; subst hnil; simp [hasKey] at hu
  have hload : loadSavedCookies { saveCookies env m with now := t2 } = m := by
    simp [loadSavedCookies, saveCookies, hfresh]
  refine ⟨hload, ?_⟩
  have hvc : validateCookies { saveCookies env m with now := t2 } m =
      (true, 1) := by
    simp [validateCookies, hm, hu, hs, saveCookies, hval]
  simp [getCookies, hload, hm, hvc]

/-- Witness for C8's amended claim at a concrete map and times. -/
theorem cookie_file_roundtrip_witness :
    loadSavedCookies { saveCookies ⟨none, fun _ => true, none, none, 1000⟩
        [("u", "1"), ("s", "x")] with now := 2000 } =
      [("u", "1"), ("s", "x")] ∧
    getCookies { saveCookies ⟨none, fun _ => true, none, none, 1000⟩
        [("u", "1"), ("s", "x")] with now := 2000 } =
      ([("u", "1"), ("s", "x")], 1,
        { saveCookies ⟨none, fun _ => true, none, none, 1000⟩
            [("u", "1"), ("s", "x")] with now := 2000 }) :=
  cookie_file_roundtrip ⟨none, fun _ => true, none, none, 1000⟩
    [("u", "1"), ("s", "x")] 2000
    (by simp [hasKey, List.lookup]) (by simp [hasKey, List.lookup])
    (by norm_num) rfl

/-! ## Cookie-import CLI (`get_cookie.py process_cookie_file`, C10)

The post-parse control flow of `process_cookie_file`: an empty parsed
map returns `False` immediately; otherwise `validate_cookies` is
called and its outcome selects only which status line is printed
("验证通过" vs "验证失败，但仍将保存"); `save_cookies` is then invoked
unconditionally, and on a successful save the input file is blanked
(the blanking write's own failure is swallowed by a bare `except` and
is outside this model) and `True` returned; a failed save leaves the
input file untouched and returns `False`.  The oracles `validateOk`
and `saveOk` stand for the network validation outcome and the JSON
write outcome. -/

structure CookieImportEffects where
  saveAttempted : Bool
  persisted : Bool
  inputBlanked : Bool
  returned : Bool
  deriving Repr, DecidableEq

/-- `process_cookie_file` from the point where the cookie string has
been parsed: returns the effects together with the printed status
lines. -/
def processCookieParsed (cookies : List (String × String))
    (validateOk saveOk : Bool) : CookieImportEffects × List String :=
  if cookies = [] then
    (⟨false, false, false, false⟩, ["未解析到有效的Cookie"])
  else
    let vmsg := if validateOk then "Cookie验证通过"
                else "Cookie验证失败，但仍将保存"
    if saveOk then
      (⟨true, true, true, true⟩, [vmsg, "Cookie保存成功"])
    else
      (⟨true, false, false, false⟩, [vmsg, "Cookie保存失败"])

/-- C10: for every non-empty parsed cookie map, the save is attempted
regardless of the validation outcome, the validation outcome changes
nothing but the printed lines (the effects are identical for both
outcomes), the map is persisted exactly when the JSON write succeeds,
and the input file is blanked exactly when the save succeeds. -/
theorem cookie_import_saves_despite_validation
    (cookies : List (String × String)) (vOk vOk' sOk : Bool)
    (hne : cookies ≠ []) :
    (processCookieParsed cookies vOk sOk).1 =
      (processCookieParsed cookies vOk' sOk).1 ∧
    (processCookieParsed cookies vOk sOk).1.saveAttempted = true ∧
    (processCookieParsed cookies vOk sOk).1.persisted = sOk ∧
    (processCookieParsed cookies vOk sOk).1.inputBlanked = sOk := by
  cases sOk <;> simp [processCookieParsed, hne]

/-- Witness for C10: a one-cookie map with failed validation and a
successful save is persisted, blanked and reported identically to the
validated run. -/
theorem cookie_import_saves_despite_validation_witness :
    (processCookieParsed [("u", "1")] false true).1 =
      (processCookieParsed [("u", "1")] true true).1 ∧
    (processCookieParsed [("u", "1")] false true).1.saveAttempted = true ∧
    (processCookieParsed [("u", "1")] false true).1.persisted = true ∧
    (processCookieParsed [("u", "1")] false true).1.inputBlanked = true :=
  cookie_import_saves_despite_validation [("u", "1")] false true true
    (by simp)

end Xueqiu
